import Mathlib

/-!
Verification of the progressive-growing training-loop control plane of
`StyleGAN.py` (function `train`, lines 170-261, and its per-batch body,
lines 206-249).

The control flow of one training run is embedded as an event trace:
each observable action of the loop (the distributed barrier, the image
blend, the discriminator and generator optimisation steps, the
exponential-moving-average update of the smoothed model, the LOD-driver
step, checkpoint saves, sample reports) becomes one `Event`.  The trace
of a batch, of an epoch, and of the whole run is computed from the same
guards the Python code uses: the batch-shape check
`x_orig.shape[0] != lod2batch.get_per_GPU_batch_size()`, the
`local_rank == 0` checks, and the `is_time_to_save()` /
`is_time_to_report()` cadence predicates.

The image-blending arithmetic of lines 216-226 is embedded separately
over rational-valued images, and the EMA decay factor of line 235 over
the rationals/reals.
-/

/-- Observable actions of `train` (src/StyleGAN.py). `save tag awaited`
records a `checkpointer.save(tag)` call and whether its returned handle
is waited on (`.wait()`). -/
inductive Event
  | load
  | setEpoch (e : Nat)
  | barrier
  | blendImage
  | dOptStep
  | emaUpdate
  | gOptStep
  | driverStep
  | save (tag : String) (awaited : Bool)
  | report
  | schedulerStep
deriving DecidableEq, Repr

/-- The run-constant inputs of the batch loop: `local_rank`,
`lod2batch.get_per_GPU_batch_size()`, the `distributed` flag passed to
`train` (lines 72, 101-118: it only selects whether the model is wrapped
in `DistributedDataParallel`; no statement in the batch loop reads it),
and the cadence predicates `is_time_to_save()` / `is_time_to_report()`
of the LOD driver, taken abstractly as functions of the driver's
iteration counter (lod_driver.py is an external collaborator here). -/
structure LoopCfg where
  rank : Nat
  perGPUBatch : Nat
  distributed : Bool
  timeToSave : Nat → Bool
  timeToReport : Nat → Bool

/-- Events of one accepted batch after the leading barrier, in source
order (lines 212-249): blend (lines 214-226), discriminator step
(lines 228-232), EMA update of the smoothed model at rank 0
(lines 234-236), generator step (lines 238-242), `lod2batch.step()`
(line 244), then the rank-0 cadence checks (lines 245-249).  `iter'` is
the driver's iteration counter after `step()`. -/
def acceptedTail (c : LoopCfg) (iter' : Nat) : List Event :=
  [Event.blendImage, Event.dOptStep]
    ++ (if c.rank = 0 then [Event.emaUpdate] else [])
    ++ [Event.gOptStep, Event.driverStep]
    ++ (if c.rank = 0 then
          (if c.timeToSave iter' then [Event.save "model_tmp_intermediate" false] else [])
            ++ (if c.timeToReport iter' then [Event.report] else [])
        else [])

/-- One iteration of `for x_orig in tqdm(batches)` (lines 206-249):
`torch.distributed.barrier()` first (line 207), then the shape check
(lines 210-211) — a batch whose first dimension `b` differs from the
per-GPU batch size is skipped by `continue` — then the accepted-batch
body.  Returns the driver iteration counter after the batch and the
emitted events. -/
def batchTrace (c : LoopCfg) (iter b : Nat) : Nat × List Event :=
  if b ≠ c.perGPUBatch then
    (iter, [Event.barrier])
  else
    (iter + 1, Event.barrier :: acceptedTail c (iter + 1))

/-- The whole batch loop over the first-dimension sizes of the batches
the data loader yields, threading the driver iteration counter. -/
def batchLoop (c : LoopCfg) : Nat → List Nat → Nat × List Event
  | iter, [] => (iter, [])
  | iter, b :: bs =>
    let r := batchTrace c iter b
    let r2 := batchLoop c r.1 bs
    (r2.1, r.2 ++ r2.2)

/-- One epoch of `train` (lines 183-257): `lod2batch.set_epoch`
(line 185; per the spec, `set_epoch` resets the driver's `iteration` to
0, which is why the batch loop starts from counter 0 — lod_driver.py is
not part of the embedded sources), the batch loop, `scheduler.step()`
(line 253), and the rank-0 end-of-epoch save and sample report
(lines 255-257). -/
def epochTrace (c : LoopCfg) (e : Nat) (batches : List Nat) : Nat × List Event :=
  ((batchLoop c 0 batches).1,
    Event.setEpoch e :: (batchLoop c 0 batches).2
      ++ [Event.schedulerStep]
      ++ (if c.rank = 0 then [Event.save "model_tmp" false, Event.report] else []))

/-- Python `range(a, b)`. -/
def pythonRange (a b : Nat) : List Nat :=
  List.range' a (b - a)

/-- The whole run (lines 170-261): `checkpointer.load()` (line 170,
executed by every rank), the epoch loop
`for epoch in range(scheduler.start_epoch(), cfg.TRAIN.TRAIN_EPOCHS)`
(line 183), and the rank-0 final save whose handle is waited on,
`checkpointer.save("model_final").wait()` (lines 260-261).  `data e` is
the list of first-dimension sizes of the batches yielded in epoch `e`. -/
def trainTrace (c : LoopCfg) (startEpoch totalEpochs : Nat) (data : Nat → List Nat) : List Event :=
  Event.load ::
    (List.flatten ((pythonRange startEpoch totalEpochs).map (fun e => (epochTrace c e (data e)).2))
      ++ (if c.rank = 0 then [Event.save "model_final" true] else []))

/-- Modelled from the spec: `Checkpointer.load` together with
`scheduler.start_epoch()` (checkpointer.py and scheduler.py are not
among the embedded sources).  Per the spec, `load()` restores every
registered component from an existing checkpoint and yields the restored
start epoch, and yields epoch 0 when no checkpoint file exists;
`scheduler.start_epoch()` then reports that epoch to the loop at
line 183.  `ckpt` is the restored epoch of the checkpoint file, when one
exists. -/
def checkpointStartEpoch : Option Nat → Nat
  | some e => e
  | none => 0

/-- The exponent of the EMA decay factor
`betta = 0.5 ** (lod2batch.get_batch_size() / (10 * 1000.0))`
(line 235), as a function of the global batch size. -/
def emaExponent (batchSize : Nat) : ℚ :=
  (batchSize : ℚ) / (10 * 1000)

/-- Images as rational-valued grids indexed by row and column. -/
def Img : Type :=
  Nat → Nat → ℚ

/-- `F.avg_pool2d(x, 2, 2)` (line 223): each output pixel averages a
2x2 block of the input. -/
def avgPool2 (x : Img) : Img :=
  fun i j =>
    (x (2 * i) (2 * j) + x (2 * i) (2 * j + 1)
      + x (2 * i + 1) (2 * j) + x (2 * i + 1) (2 * j + 1)) / 4

/-- `F.interpolate(x, outRes)` in its default nearest-neighbour mode
(line 224), for an input of resolution `inRes`: output pixel `(i, j)`
reads input pixel `(i * inRes / outRes, j * inRes / outRes)` (integer
division). -/
def interpolateNearest (x : Img) (inRes outRes : Nat) : Img :=
  fun i j => x (i * inRes / outRes) (j * inRes / outRes)

/-- The spec's words for the transition image: the "2×-upsampled
previous-resolution" image, each pixel repeated over a 2x2 block. -/
def upsample2x (x : Img) : Img :=
  fun i j => x (i / 2) (j / 2)

/-- The real-image preparation of lines 216-226 for an input `x` of
resolution `res`: when the driver is in transition, the image is blended
with `F.interpolate(F.avg_pool2d(x, 2, 2), res)` — the pooled image has
resolution `res / 2` — using the blend factor; otherwise the image is
used as is. -/
def trainBlendImage (inTransition : Bool) (blend : ℚ) (res : Nat) (x : Img) : Img :=
  if inTransition then
    fun i j =>
      x i j * blend + interpolateNearest (avgPool2 x) (res / 2) res i j * (1 - blend)
  else x

/-- `a` occurs in `t` strictly before `b`. -/
def occursBefore (t : List Event) (a b : Event) : Prop :=
  a ∈ t ∧ b ∈ t ∧ t.indexOf a < t.indexOf b

/-- The per-batch operation order as the spec states it: blend, then
discriminator step, then generator step, then EMA update, then driver
step. -/
def specBatchOrder (t : List Event) : Prop :=
  occursBefore t Event.blendImage Event.dOptStep
    ∧ occursBefore t Event.dOptStep Event.gOptStep
    ∧ occursBefore t Event.gOptStep Event.emaUpdate
    ∧ occursBefore t Event.emaUpdate Event.driverStep

/-- A concrete rank-0 configuration used by concrete instances. -/
def cfg0 : LoopCfg :=
  ⟨0, 4, false, fun _ => false, fun _ => false⟩

/-- A concrete rank-0 configuration whose cadence predicates always
fire. -/
def cfg0on : LoopCfg :=
  ⟨0, 4, true, fun _ => true, fun _ => true⟩

/-- A concrete rank-1 (non-coordinating) configuration. -/
def cfg1 : LoopCfg :=
  ⟨1, 4, true, fun _ => true, fun _ => true⟩

/-- A concrete per-epoch batch-size stream: each epoch yields one
accepted batch. -/
def data0 : Nat → List Nat :=
  fun _ => [4]

/-- A concrete image used by concrete instances. -/
def imgW : Img :=
  fun i j => (i : ℚ) + 2 * (j : ℚ)

instance (t : List Event) (a b : Event) : Decidable (occursBefore t a b) := by
  unfold occursBefore; infer_instance

instance (t : List Event) : Decidable (specBatchOrder t) := by
  unfold specBatchOrder; infer_instance

theorem batchTrace_skip {c : LoopCfg} {b : Nat} (iter : Nat) (h : b ≠ c.perGPUBatch) :
    batchTrace c iter b = (iter, [Event.barrier]) := by
  unfold batchTrace; rw [if_pos h]

theorem batchTrace_acc {c : LoopCfg} {b : Nat} (iter : Nat) (h : b = c.perGPUBatch) :
    batchTrace c iter b = (iter + 1, Event.barrier :: acceptedTail c (iter + 1)) := by
  unfold batchTrace; rw [if_neg (by simp [h])]

theorem batchLoop_nil (c : LoopCfg) (iter : Nat) : batchLoop c iter [] = (iter, []) := rfl

theorem batchLoop_cons (c : LoopCfg) (iter b : Nat) (bs : List Nat) :
    batchLoop c iter (b :: bs)
      = ((batchLoop c (batchTrace c iter b).1 bs).1,
          (batchTrace c iter b).2 ++ (batchLoop c (batchTrace c iter b).1 bs).2) := rfl

theorem not_barrier_acceptedTail (c : LoopCfg) (i : Nat) :
    Event.barrier ∉ acceptedTail c i := by
  unfold acceptedTail; split_ifs <;> simp

theorem not_setEpoch_acceptedTail (c : LoopCfg) (i e : Nat) :
    Event.setEpoch e ∉ acceptedTail c i := by
  unfold acceptedTail; split_ifs <;> simp

theorem save_acceptedTail {c : LoopCfg} {i : Nat} {tag : String} {aw : Bool}
    (h : Event.save tag aw ∈ acceptedTail c i) :
    c.rank = 0 ∧ aw = false ∧ tag = "model_tmp_intermediate" := by
  unfold acceptedTail at h
  split_ifs at h <;> simp_all

theorem report_acceptedTail {c : LoopCfg} {i : Nat}
    (h : Event.report ∈ acceptedTail c i) : c.rank = 0 := by
  unfold acceptedTail at h
  split_ifs at h <;> simp_all

theorem count_driverStep_acceptedTail (c : LoopCfg) (i : Nat) :
    (acceptedTail c i).count Event.driverStep = 1 := by
  unfold acceptedTail; split_ifs <;> rfl

theorem mem_batchTrace {c : LoopCfg} {iter b : Nat} {e : Event}
    (h : e ∈ (batchTrace c iter b).2) :
    e = Event.barrier ∨ e ∈ acceptedTail c (iter + 1) := by
  by_cases hb : b = c.perGPUBatch
  · rw [batchTrace_acc iter hb] at h
    exact List.mem_cons.mp h
  · rw [batchTrace_skip iter hb] at h
    exact Or.inl (List.mem_singleton.mp h)

theorem mem_batchLoop {c : LoopCfg} {e : Event} :
    ∀ (bs : List Nat) (iter : Nat), e ∈ (batchLoop c iter bs).2 →
      e = Event.barrier ∨ ∃ i, e ∈ acceptedTail c i := by
  intro bs
  induction bs with
  | nil => intro iter h; simp [batchLoop_nil] at h
  | cons b bs ih =>
    intro iter h
    rw [batchLoop_cons] at h
    rcases List.mem_append.mp h with h | h
    · rcases mem_batchTrace h with h | h
      · exact Or.inl h
      · exact Or.inr ⟨_, h⟩
    · exact ih _ h

theorem count_barrier_batchTrace (c : LoopCfg) (iter b : Nat) :
    (batchTrace c iter b).2.count Event.barrier = 1 := by
  by_cases hb : b = c.perGPUBatch
  · rw [batchTrace_acc iter hb]
    simp [List.count_cons, List.count_eq_zero.mpr (not_barrier_acceptedTail c (iter + 1))]
  · rw [batchTrace_skip iter hb]; rfl

theorem count_barrier_batchLoop (c : LoopCfg) :
    ∀ (bs : List Nat) (iter : Nat),
      (batchLoop c iter bs).2.count Event.barrier = bs.length := by
  intro bs
  induction bs with
  | nil => intro iter; rfl
  | cons b bs ih =>
    intro iter
    rw [batchLoop_cons]
    simp only [List.count_append, count_barrier_batchTrace, ih, List.length_cons]
    omega

theorem batchTrace_fst (c : LoopCfg) (iter b : Nat) :
    (batchTrace c iter b).1 = iter + (if b = c.perGPUBatch then 1 else 0) := by
  by_cases hb : b = c.perGPUBatch
  · rw [batchTrace_acc iter hb, if_pos hb]
  · rw [batchTrace_skip iter hb, if_neg hb]; rfl

theorem batchLoop_fst (c : LoopCfg) :
    ∀ (bs : List Nat) (iter : Nat),
      (batchLoop c iter bs).1 = iter + bs.countP (fun x => x == c.perGPUBatch) := by
  intro bs
  induction bs with
  | nil => intro iter; simp [batchLoop_nil]
  | cons b bs ih =>
    intro iter
    rw [batchLoop_cons]
    show (batchLoop c (batchTrace c iter b).1 bs).1 = _
    rw [ih, batchTrace_fst, List.countP_cons]
    by_cases hb : b = c.perGPUBatch <;> simp [hb] <;> omega

theorem count_driverStep_batchTrace (c : LoopCfg) (iter b : Nat) :
    (batchTrace c iter b).2.count Event.driverStep
      = (if b = c.perGPUBatch then 1 else 0) := by
  by_cases hb : b = c.perGPUBatch
  · rw [batchTrace_acc iter hb, if_pos hb]
    simp [List.count_cons, count_driverStep_acceptedTail c (iter + 1)]
  · rw [batchTrace_skip iter hb, if_neg hb]; rfl

theorem count_driverStep_batchLoop (c : LoopCfg) :
    ∀ (bs : List Nat) (iter : Nat),
      (batchLoop c iter bs).2.count Event.driverStep
        = bs.countP (fun x => x == c.perGPUBatch) := by
  intro bs
  induction bs with
  | nil => intro iter; rfl
  | cons b bs ih =>
    intro iter
    rw [batchLoop_cons]
    simp only [List.count_append, count_driverStep_batchTrace, ih, List.countP_cons]
    by_cases hb : b = c.perGPUBatch <;> simp [hb] <;> omega

theorem epochTrace_fst (c : LoopCfg) (e : Nat) (bs : List Nat) :
    (epochTrace c e bs).1 = bs.countP (fun x => x == c.perGPUBatch) := by
  show (batchLoop c 0 bs).1 = _
  rw [batchLoop_fst]
  omega

theorem count_driverStep_epochTrace (c : LoopCfg) (e : Nat) (bs : List Nat) :
    (epochTrace c e bs).2.count Event.driverStep
      = bs.countP (fun x => x == c.perGPUBatch) := by
  show (Event.setEpoch e :: (batchLoop c 0 bs).2 ++ [Event.schedulerStep]
      ++ (if c.rank = 0 then [Event.save "model_tmp" false, Event.report] else [])).count
      Event.driverStep = _
  split_ifs <;>
    simp [List.count_cons, List.count_append, count_driverStep_batchLoop c bs 0]

theorem setEpoch_epochTrace {c : LoopCfg} {e' : Nat} {bs : List Nat} {e : Nat} :
    Event.setEpoch e ∈ (epochTrace c e' bs).2 ↔ e = e' := by
  constructor
  · intro h
    rcases List.mem_cons.mp h with h | h
    · injection h
    · exfalso
      rcases List.mem_append.mp h with h | h
      · rcases List.mem_append.mp h with h | h
        · rcases mem_batchLoop bs 0 h with h | ⟨i, h⟩
          · exact absurd h (by simp)
          · exact not_setEpoch_acceptedTail c i e h
        · simp at h
      · split_ifs at h <;> simp_all
  · rintro rfl
    exact List.mem_cons_self _ _

theorem save_epochTrace {c : LoopCfg} {e : Nat} {bs : List Nat} {tag : String} {aw : Bool}
    (h : Event.save tag aw ∈ (epochTrace c e bs).2) :
    c.rank = 0 ∧ aw = false ∧ (tag = "model_tmp_intermediate" ∨ tag = "model_tmp") := by
  rcases List.mem_cons.mp h with h | h
  · exact absurd h (by simp)
  rcases List.mem_append.mp h with h | h
  · rcases List.mem_append.mp h with h | h
    · rcases mem_batchLoop bs 0 h with h | ⟨i, h⟩
      · exact absurd h (by simp)
      · rcases save_acceptedTail h with ⟨h0, ha, ht⟩
        exact ⟨h0, ha, Or.inl ht⟩
    · simp at h
  · split_ifs at h with hr
    · simp only [List.mem_cons, List.not_mem_nil, or_false] at h
      rcases h with h | h
      · injection h with h1 h2
        exact ⟨hr, h2, Or.inr h1⟩
      · exact absurd h (by simp)
    · simp at h

theorem report_epochTrace {c : LoopCfg} {e : Nat} {bs : List Nat}
    (h : Event.report ∈ (epochTrace c e bs).2) : c.rank = 0 := by
  rcases List.mem_cons.mp h with h | h
  · exact absurd h (by simp)
  rcases List.mem_append.mp h with h | h
  · rcases List.mem_append.mp h with h | h
    · rcases mem_batchLoop bs 0 h with h | ⟨i, h⟩
      · exact absurd h (by simp)
      · exact report_acceptedTail h
    · simp at h
  · split_ifs at h with hr
    · exact hr
    · simp at h

theorem load_trainTrace (c : LoopCfg) (s T : Nat) (data : Nat → List Nat) :
    Event.load ∈ trainTrace c s T data :=
  List.mem_cons_self _ _

theorem setEpoch_trainTrace {c : LoopCfg} {s T : Nat} {data : Nat → List Nat} {e : Nat} :
    Event.setEpoch e ∈ trainTrace c s T data ↔ e ∈ pythonRange s T := by
  constructor
  · intro h
    rcases List.mem_cons.mp h with h | h
    · exact absurd h (by simp)
    rcases List.mem_append.mp h with h | h
    · rcases List.mem_flatten.mp h with ⟨l, hl, hm⟩
      rcases List.mem_map.mp hl with ⟨e', he', rfl⟩
      rwa [setEpoch_epochTrace.mp hm]
    · split_ifs at h <;> simp_all
  · intro h
    refine List.mem_cons.mpr (Or.inr (List.mem_append.mpr (Or.inl ?_)))
    exact List.mem_flatten.mpr
      ⟨_, List.mem_map.mpr ⟨e, h, rfl⟩, setEpoch_epochTrace.mpr rfl⟩

theorem save_trainTrace {c : LoopCfg} {s T : Nat} {data : Nat → List Nat}
    {tag : String} {aw : Bool}
    (h : Event.save tag aw ∈ trainTrace c s T data) :
    c.rank = 0 ∧ ((aw = true ∧ tag = "model_final")
      ∨ (aw = false ∧ (tag = "model_tmp_intermediate" ∨ tag = "model_tmp"))) := by
  rcases List.mem_cons.mp h with h | h
  · exact absurd h (by simp)
  rcases List.mem_append.mp h with h | h
  · rcases List.mem_flatten.mp h with ⟨l, hl, hm⟩
    rcases List.mem_map.mp hl with ⟨e', he', rfl⟩
    rcases save_epochTrace hm with ⟨h0, ha, ht⟩
    exact ⟨h0, Or.inr ⟨ha, ht⟩⟩
  · split_ifs at h with hr
    · simp only [List.mem_singleton] at h
      injection h with h1 h2
      exact ⟨hr, Or.inl ⟨h2, h1⟩⟩
    · simp at h

theorem report_trainTrace {c : LoopCfg} {s T : Nat} {data : Nat → List Nat}
    (h : Event.report ∈ trainTrace c s T data) : c.rank = 0 := by
  rcases List.mem_cons.mp h with h | h
  · exact absurd h (by simp)
  rcases List.mem_append.mp h with h | h
  · rcases List.mem_flatten.mp h with ⟨l, hl, hm⟩
    rcases List.mem_map.mp hl with ⟨e', he', rfl⟩
    exact report_epochTrace hm
  · split_ifs at h with hr
    · exact hr
    · simp at h

theorem mem_pythonRange {a b m : Nat} : m ∈ pythonRange a b ↔ a ≤ m ∧ m < b := by
  unfold pythonRange
  rw [List.mem_range'_1]
  omega

/-- C1, counterexample to the claim as stated: for a concrete rank-0
configuration and one accepted batch, the per-batch trace does not
satisfy the spec's order "blend, discriminator step, generator step, EMA
update, driver step" — in the code the EMA update of the smoothed model
(lines 234-236) runs after the discriminator step and before the
generator step, not after it. -/
theorem spec2proof_c1_cex : ¬ specBatchOrder (batchTrace cfg0 0 4).2 := by
  decide

/-- C1 (amended): in every accepted batch iteration at rank 0, the
operations occur in the order: blend the image per `get_blend_factor()`,
run one discriminator-optimization step, update the smoothed (EMA) copy
of the generator+mapping weights, run one generator-optimization step,
advance the driver's step counter, and then check the save/report
cadence triggers; the driver counter is advanced by one. -/
theorem spec2proof_c1 (p i : Nat) (d : Bool) (ts tr : Nat → Bool) :
    (batchTrace ⟨0, p, d, ts, tr⟩ i p).2
        = Event.barrier :: Event.blendImage :: Event.dOptStep :: Event.emaUpdate
            :: Event.gOptStep :: Event.driverStep
            :: ((if ts (i + 1) then [Event.save "model_tmp_intermediate" false] else [])
                ++ (if tr (i + 1) then [Event.report] else []))
      ∧ (batchTrace ⟨0, p, d, ts, tr⟩ i p).1 = i + 1 := by
  constructor
  · rw [batchTrace_acc i rfl]
    show Event.barrier :: acceptedTail ⟨0, p, d, ts, tr⟩ (i + 1) = _
    unfold acceptedTail
    simp
  · rw [batchTrace_acc i rfl]

/-- C2: the EMA decay factor of line 235,
`0.5 ** (batch_size / (10 * 1000.0))`, equals `0.5 ^ (batch_size / 10000)`
for every global batch size, and the induced per-sample decay factor
(the factor raised to `1 / batch_size`) is the constant
`0.5 ^ (1 / 10000)`, independent of the batch size: the half-life is
10000 processed samples whatever the batch size. -/
theorem spec2proof_c2 :
    (∀ bs : Nat, ((1 : ℝ) / 2) ^ ((emaExponent bs : ℝ))
        = ((1 : ℝ) / 2) ^ ((bs : ℝ) / 10000))
      ∧ ∀ bs : Nat, 0 < bs →
          (((1 : ℝ) / 2) ^ ((emaExponent bs : ℝ))) ^ ((bs : ℝ))⁻¹
            = ((1 : ℝ) / 2) ^ ((10000 : ℝ))⁻¹ := by
  have key : ∀ bs : Nat, ((emaExponent bs : ℝ)) = (bs : ℝ) / 10000 := by
    intro bs
    unfold emaExponent
    push_cast
    norm_num
  constructor
  · intro bs
    rw [key]
  · intro bs hbs
    have hb : (bs : ℝ) ≠ 0 := Nat.cast_ne_zero.mpr hbs.ne'
    rw [key, ← Real.rpow_mul (by norm_num)]
    congr 1
    field_simp
    ring

/-- C2 witness at batch size 32. -/
theorem spec2proof_c2_witness :
    0 < (32 : Nat)
      ∧ (((1 : ℝ) / 2) ^ ((emaExponent 32 : ℝ))) ^ (((32 : Nat) : ℝ))⁻¹
          = ((1 : ℝ) / 2) ^ ((10000 : ℝ))⁻¹ :=
  ⟨by norm_num, spec2proof_c2.2 32 (by norm_num)⟩

/-- C3: while the driver is in transition, the image fed to both
optimization steps is `x * blend + upsample2x (avgpool2x x) * (1 - blend)`
— the nearest-neighbour `F.interpolate` of the 2x2-average-pooled image
back to the current resolution `2 * m` is exactly the 2x upsampling of
the pooled previous-resolution image — and outside a transition the
image is used unblended. -/
theorem spec2proof_c3 (x : Img) (bf : ℚ) (m : Nat) (hm : 0 < m) (i j : Nat) :
    trainBlendImage true bf (2 * m) x i j
        = x i j * bf + upsample2x (avgPool2 x) i j * (1 - bf)
      ∧ trainBlendImage false bf (2 * m) x i j = x i j := by
  have hdiv : ∀ k : Nat, k * (2 * m / 2) / (2 * m) = k / 2 := by
    intro k
    have h2 : 2 * m / 2 = m := Nat.mul_div_cancel_left m (by norm_num)
    rw [h2, Nat.mul_comm k m, Nat.mul_comm 2 m, Nat.mul_div_mul_left k 2 hm]
  constructor
  · show x i j * bf
        + avgPool2 x (i * (2 * m / 2) / (2 * m)) (j * (2 * m / 2) / (2 * m)) * (1 - bf)
      = x i j * bf + avgPool2 x (i / 2) (j / 2) * (1 - bf)
    rw [hdiv i, hdiv j]
  · rfl

/-- C3 witness at resolution 2, blend 1/2, pixel (1, 0). -/
theorem spec2proof_c3_witness :
    0 < 1
      ∧ (trainBlendImage true (1 / 2) (2 * 1) imgW 1 0
            = imgW 1 0 * (1 / 2) + upsample2x (avgPool2 imgW) 1 0 * (1 - 1 / 2)
          ∧ trainBlendImage false (1 / 2) (2 * 1) imgW 1 0 = imgW 1 0) :=
  ⟨by norm_num, spec2proof_c3 imgW (1 / 2) 1 (by norm_num) 1 0⟩

/-- C4: a batch whose first-dimension element count differs from the
configured per-GPU batch size is silently skipped: its trace is just the
barrier (no optimizer step, no loss update, no EMA update, no driver
step, and the embedding is total — nothing is raised), the driver
counter is unchanged, and the loop continues with the remaining
batches. -/
theorem spec2proof_c4 (c : LoopCfg) (iter b : Nat) (bs : List Nat)
    (h : b ≠ c.perGPUBatch) :
    batchTrace c iter b = (iter, [Event.barrier])
      ∧ (batchLoop c iter (b :: bs)).1 = (batchLoop c iter bs).1
      ∧ (batchLoop c iter (b :: bs)).2 = Event.barrier :: (batchLoop c iter bs).2 := by
  have h1 : batchTrace c iter b = (iter, [Event.barrier]) := batchTrace_skip iter h
  refine ⟨h1, ?_, ?_⟩
  · rw [batchLoop_cons, h1]
  · rw [batchLoop_cons, h1]
    rfl

/-- C4 witness: a batch of 3 elements against a per-GPU batch size of 4. -/
theorem spec2proof_c4_witness :
    (3 ≠ cfg0.perGPUBatch)
      ∧ (batchTrace cfg0 0 3 = (0, [Event.barrier])
          ∧ (batchLoop cfg0 0 (3 :: [4])).1 = (batchLoop cfg0 0 [4]).1
          ∧ (batchLoop cfg0 0 (3 :: [4])).2 = Event.barrier :: (batchLoop cfg0 0 [4]).2) :=
  ⟨by decide, spec2proof_c4 cfg0 0 3 [4] (by decide)⟩

/-- C5: after `checkpointer.load()` the loop's epoch range starts
exactly at `scheduler.start_epoch()` (the epoch restored from the
checkpoint, or 0 when none exists) and runs up to the configured total
epoch count: the epoch at the restored index is processed first (when
any epochs remain), no epoch below the restored index — whose decay
milestones were already applied — is processed again, and no epoch at or
beyond the total is processed. -/
theorem spec2proof_c5 (c : LoopCfg) (ckpt : Option Nat) (total : Nat)
    (data : Nat → List Nat) :
    (∀ e, ckpt = some e → checkpointStartEpoch ckpt = e)
      ∧ (ckpt = none → checkpointStartEpoch ckpt = 0)
      ∧ (checkpointStartEpoch ckpt < total →
          Event.setEpoch (checkpointStartEpoch ckpt)
            ∈ trainTrace c (checkpointStartEpoch ckpt) total data)
      ∧ (∀ e, Event.setEpoch e ∈ trainTrace c (checkpointStartEpoch ckpt) total data →
          checkpointStartEpoch ckpt ≤ e ∧ e < total) := by
  refine ⟨?_, ?_, ?_, ?_⟩
  · intro e he; rw [he]; rfl
  · intro he; rw [he]; rfl
  · intro hlt
    exact setEpoch_trainTrace.mpr (mem_pythonRange.mpr ⟨le_refl _, hlt⟩)
  · intro e he
    exact mem_pythonRange.mp (setEpoch_trainTrace.mp he)

/-- C5 witness: a checkpoint restored at epoch 3 of a 5-epoch run. -/
theorem spec2proof_c5_witness :
    checkpointStartEpoch (some 3) < 5
      ∧ Event.setEpoch (checkpointStartEpoch (some 3))
          ∈ trainTrace cfg0 (checkpointStartEpoch (some 3)) 5 data0 :=
  ⟨by decide, (spec2proof_c5 cfg0 (some 3) 5 data0).2.2.1 (by decide)⟩

/-- C6: in every run, checkpoint saves (intermediate, end-of-epoch and
final) and sample reports occur only at rank 0 — a worker with nonzero
rank emits no save and no report event — while `checkpointer.load()` is
executed by every worker regardless of rank. -/
theorem spec2proof_c6 (c : LoopCfg) (s T : Nat) (data : Nat → List Nat) :
    (c.rank ≠ 0 →
        (∀ tag aw, Event.save tag aw ∉ trainTrace c s T data)
          ∧ Event.report ∉ trainTrace c s T data)
      ∧ Event.load ∈ trainTrace c s T data := by
  constructor
  · intro hr
    constructor
    · intro tag aw h
      exact hr (save_trainTrace h).1
    · intro h
      exact hr (report_trainTrace h)
  · exact load_trainTrace c s T data

/-- C6 witness: a rank-1 worker never saves the final checkpoint. -/
theorem spec2proof_c6_witness :
    cfg1.rank ≠ 0
      ∧ Event.save "model_final" true ∉ trainTrace cfg1 0 1 data0 :=
  ⟨by decide, ((spec2proof_c6 cfg1 0 1 data0).1 (by decide)).1 "model_final" true⟩

/-- C7: at rank 0 the run's trace ends with the final save
`checkpointer.save("model_final")` whose handle is awaited, and a save
event is awaited exactly when its tag is `"model_final"`: the
intermediate (`"model_tmp_intermediate"`) and end-of-epoch
(`"model_tmp"`) saves are dispatched without being awaited. -/
theorem spec2proof_c7 (c : LoopCfg) (s T : Nat) (data : Nat → List Nat)
    (h0 : c.rank = 0) :
    (trainTrace c s T data).getLast? = some (Event.save "model_final" true)
      ∧ ∀ tag aw, Event.save tag aw ∈ trainTrace c s T data →
          (aw = true ↔ tag = "model_final") := by
  constructor
  · show (Event.load ::
        (List.flatten ((pythonRange s T).map (fun e => (epochTrace c e (data e)).2))
          ++ (if c.rank = 0 then [Event.save "model_final" true] else []))).getLast?
      = some (Event.save "model_final" true)
    rw [if_pos h0, ← List.cons_append]
    exact List.getLast?_concat _
  · intro tag aw h
    rcases save_trainTrace h with ⟨_, ⟨ha, ht⟩ | ⟨ha, ht⟩⟩
    · subst ha; subst ht; simp
    · subst ha
      constructor
      · intro hx; exact absurd hx (by simp)
      · intro hx
        exfalso
        rcases ht with rfl | rfl <;> simp_all

/-- C7 witness: a concrete rank-0 run whose cadence predicates always
fire, so intermediate, end-of-epoch and final saves all occur. -/
theorem spec2proof_c7_witness :
    cfg0on.rank = 0
      ∧ (trainTrace cfg0on 0 1 data0).getLast? = some (Event.save "model_final" true) :=
  ⟨rfl, (spec2proof_c7 cfg0on 0 1 data0 rfl).1⟩

/-- C8: the distributed barrier is executed exactly once per batch
iteration and it is the first action of the iteration (hence before the
forward passes of that batch), so over a whole epoch loop the number of
barrier events equals the number of batches yielded. -/
theorem spec2proof_c8 (c : LoopCfg) (i b : Nat) (batches : List Nat) :
    (batchTrace c i b).2.count Event.barrier = 1
      ∧ (batchTrace c i b).2.head? = some Event.barrier
      ∧ (batchLoop c i batches).2.count Event.barrier = batches.length := by
  refine ⟨count_barrier_batchTrace c i b, ?_, count_barrier_batchLoop c batches i⟩
  by_cases hb : b = c.perGPUBatch
  · rw [batchTrace_acc i hb]; rfl
  · rw [batchTrace_skip i hb]; rfl

/-- C9: the driver's `step()` advances the iteration counter exactly
once per accepted batch and never for a batch rejected by the shape
check, so after an epoch's batch loop the counter (reset to 0 by
`set_epoch`, per the spec for lod_driver.py) equals the number of
non-skipped batches, as does the number of driver-step events. -/
theorem spec2proof_c9 (c : LoopCfg) (e : Nat) (batches : List Nat) (i b : Nat) :
    (epochTrace c e batches).1 = batches.countP (fun x => x == c.perGPUBatch)
      ∧ (epochTrace c e batches).2.count Event.driverStep
          = batches.countP (fun x => x == c.perGPUBatch)
      ∧ (batchTrace c i c.perGPUBatch).1 = i + 1
      ∧ (b ≠ c.perGPUBatch → (batchTrace c i b).1 = i) := by
  refine ⟨epochTrace_fst c e batches, count_driverStep_epochTrace c e batches, ?_, ?_⟩
  · rw [batchTrace_acc i rfl]
  · intro hb
    rw [batchTrace_skip i hb]

/-- C9 witness: a rejected batch of 3 elements leaves the counter at 0. -/
theorem spec2proof_c9_witness :
    (3 ≠ cfg0.perGPUBatch) ∧ (batchTrace cfg0 0 3).1 = 0 :=
  ⟨by decide, (spec2proof_c9 cfg0 0 [4] 0 3).2.2.2 (by decide)⟩

/-- C10: the per-batch barrier is unconditional: it is the head of every
batch iteration's trace, the whole iteration is unchanged when the
`distributed` flag is flipped (the flag only selects the model wrapping
at lines 101-118, which the loop never consults), and a batch that the
shape check subsequently skips still emits the barrier — its trace is
exactly the barrier. -/
theorem spec2proof_c10 (r p : Nat) (d1 d2 : Bool) (ts tr : Nat → Bool) (i b : Nat) :
    (batchTrace ⟨r, p, d1, ts, tr⟩ i b).2.head? = some Event.barrier
      ∧ batchTrace ⟨r, p, d1, ts, tr⟩ i b = batchTrace ⟨r, p, d2, ts, tr⟩ i b
      ∧ (b ≠ p → (batchTrace ⟨r, p, d1, ts, tr⟩ i b).2 = [Event.barrier]) := by
  refine ⟨?_, rfl, ?_⟩
  · by_cases hb : b = p
    · rw [batchTrace_acc i hb]; rfl
    · rw [batchTrace_skip i hb]; rfl
  · intro hb
    rw [batchTrace_skip i hb]

/-- C10 witness: a skipped batch in a single-process (non-distributed)
run still hits the barrier. -/
theorem spec2proof_c10_witness :
    (3 ≠ 4)
      ∧ (batchTrace ⟨0, 4, false, fun _ => false, fun _ => false⟩ 0 3).2
          = [Event.barrier] :=
  ⟨by decide,
    (spec2proof_c10 0 4 false true (fun _ => false) (fun _ => false) 0 3).2.2 (by decide)⟩
